import Mathlib

/-!
Verification of the moderation and request-normalization core of `score.py`
(the foundation-model-inference scoring script).

Python strings are modelled as `List Char`, Python values reaching the
structural redactor as the inductive `PyObj`, and fallible Python code as
`Option` / `Except`.  External collaborators (the AACS classifier client and
`json.loads`) are passed in as function parameters.
-/

/-- Characters removed by Python `str.strip()` (ASCII whitespace, the set
`string.whitespace`). -/
def isPySpace (c : Char) : Bool :=
  c = ' ' || c = '\t' || c = '\n' || c = '\x0b' || c = '\x0c' || c = '\r'

/-- Python `s.strip()`: drop leading and trailing whitespace. -/
def pyStrip (s : List Char) : List Char :=
  ((s.dropWhile isPySpace).reverse.dropWhile isPySpace).reverse

/-- Python substring containment `tag in s`. -/
def containsTag (tag : List Char) : List Char → Bool
  | [] => tag.isEmpty
  | c :: rest => tag.isPrefixOf (c :: rest) || containsTag tag rest

/-- Python `max(l)` on a list of naturals: `none` models the `ValueError`
raised on an empty list. -/
def pyMax (l : List Nat) : Option Nat :=
  match l with
  | [] => none
  | x :: rest => some (rest.foldl max x)

/-- Configuration of the chunking helper `CsChunkingUtils` in `score.py`:
a maximal chunk size and a delimiter character. -/
structure CsChunkingUtils where
  chunking_n : Nat
  delimiter : Char

/-- Body of `chunkstring`, which emits the slices `string[i : i + length]`
for `i = 0, length, 2*length, ...` (the generator over
`range(0, len(string), length)` in the source).  The fuel argument bounds the
number of slices; `string.length` is always enough fuel when `length > 0`. -/
def chunkstringGo (fuel : Nat) (string : List Char) (length : Nat) : List (List Char) :=
  match fuel with
  | 0 => []
  | fuel + 1 =>
    if string = [] then []
    else string.take length :: chunkstringGo fuel (string.drop length) length

/-- Models `CsChunkingUtils.chunkstring`: chunk a string into consecutive
fixed-length slices. -/
def CsChunkingUtils.chunkstring (_u : CsChunkingUtils) (string : List Char)
    (length : Nat) : List (List Char) :=
  chunkstringGo string.length string length

/-- The greedy packing loop inside `split_by`: the `ret` / `buffer`
accumulation over the delimiter-terminated pieces. -/
def splitByLoop (u : CsChunkingUtils) (pieces : List (List Char))
    (buffer : List Char) : List (List Char) :=
  match pieces with
  | [] => if buffer.length > 0 then [buffer] else []
  | i :: rest =>
    if i.length > u.chunking_n then
      (buffer :: u.chunkstring i u.chunking_n) ++ splitByLoop u rest []
    else if buffer.length + i.length ≤ u.chunking_n then
      splitByLoop u rest (buffer ++ i)
    else
      buffer :: splitByLoop u rest i

/-- Models `CsChunkingUtils.split_by`: split the input on the delimiter, drop
the empty pieces, re-append the delimiter to every kept piece, then greedily
pack pieces into chunks of size at most `chunking_n`, slicing any over-long
piece with `chunkstring`. -/
def CsChunkingUtils.split_by (u : CsChunkingUtils) (input : List Char) :
    List (List Char) :=
  let split := ((input.splitOn u.delimiter).filter (fun e => !e.isEmpty)).map
    (fun e => e ++ [u.delimiter])
  splitByLoop u split []

/-- One category score inside an AACS text-analysis response. -/
structure CategoryResult where
  severity : Nat

/-- Shape of one AACS text-analysis response: four optional category results
(the collaborator data consumed by `analyze_response`). -/
structure AacsResponse where
  hate_result : Option CategoryResult
  self_harm_result : Option CategoryResult
  sexual_result : Option CategoryResult
  violence_result : Option CategoryResult

/-- Models `analyze_response`: starting from 0, fold the severities of the
categories present in the response with `max`. -/
def analyze_response (response : AacsResponse) : Nat :=
  let severity : Nat := 0
  let severity := match response.hate_result with
    | some r => max severity r.severity
    | none => severity
  let severity := match response.self_harm_result with
    | some r => max severity r.severity
    | none => severity
  let severity := match response.sexual_result with
    | some r => max severity r.severity
    | none => severity
  let severity := match response.violence_result with
    | some r => max severity r.severity
    | none => severity
  severity

/-- Models `analyze_text`: return 0 for empty or whitespace-only text without
consulting the classifier; otherwise chunk the text with
`CsChunkingUtils(chunking_n=1000, delimiter=".")`, consult the external
classifier `client` once per chunk, and reduce the per-chunk severities with
Python `max` (which fails on an empty chunk list, modelled by `none`). -/
def analyze_text (client : List Char → AacsResponse) (text : List Char) :
    Option Nat :=
  if text.isEmpty || (pyStrip text).isEmpty then some 0
  else
    let chunking_utils : CsChunkingUtils := ⟨1000, '.'⟩
    let split_text := chunking_utils.split_by text
    let result := split_text.map (fun i => analyze_response (client i))
    pyMax result

/-- Python values reaching the structural redactor: JSON-style mappings,
sequences (lists and numpy arrays), pandas frames (column labels plus a
row-major cell grid, with default positional labels so that `at[i, j]` is
positional access), strings, and non-string scalars. -/
inductive PyObj where
  | dict (entries : List (List Char × PyObj))
  | list (elems : List PyObj)
  | frame (cols : List (List Char)) (rows : List (List PyObj))
  | str (s : List Char)
  | int (n : Int)
  | bool (b : Bool)
  | none

/-- True exactly on mapping values (Python `isinstance(x, dict)`). -/
def PyObj.isDict : PyObj → Bool
  | .dict _ => true
  | _ => false

mutual

/-- Models `iterate`: walk a value, redact every string whose analyzed
severity exceeds the threshold `t`, and aggregate the maximal severity seen;
non-string scalars pass through with severity 0.  The `none` result models an
uncaught Python exception (the `max` of an empty chunk list inside
`analyze_text`). -/
def iterate (t : Nat) (client : List Char → AacsResponse) (obj : PyObj) :
    Option (PyObj × Nat) :=
  match obj with
  | .dict entries =>
    match iterDict t client entries with
    | Option.none => Option.none
    | some (entries2, severity) => some (.dict entries2, severity)
  | .list elems =>
    match iterList t client elems with
    | Option.none => Option.none
    | some (elems2, severity) => some (.list elems2, severity)
  | .frame cols rows =>
    match iterRows t client rows with
    | Option.none => Option.none
    | some (rows2, severity) => some (.frame cols rows2, severity)
  | .str s =>
    match analyze_text client s with
    | Option.none => Option.none
    | some severity =>
      if severity > t then some (.str [], severity)
      else some (.str s, severity)
  | x => some (x, 0)

/-- The `for key, value in obj.items()` loop of `iterate`. -/
def iterDict (t : Nat) (client : List Char → AacsResponse)
    (entries : List (List Char × PyObj)) :
    Option (List (List Char × PyObj) × Nat) :=
  match entries with
  | [] => some ([], 0)
  | (key, value) :: rest =>
    match iterate t client value with
    | Option.none => Option.none
    | some (value2, value_severity) =>
      match iterDict t client rest with
      | Option.none => Option.none
      | some (rest2, severity) =>
        some ((key, value2) :: rest2, max value_severity severity)

/-- The `for idx in range(len(obj))` loop of `iterate`. -/
def iterList (t : Nat) (client : List Char → AacsResponse)
    (elems : List PyObj) : Option (List PyObj × Nat) :=
  match elems with
  | [] => some ([], 0)
  | x :: rest =>
    match iterate t client x with
    | Option.none => Option.none
    | some (x2, value_severity) =>
      match iterList t client rest with
      | Option.none => Option.none
      | some (rest2, severity) => some (x2 :: rest2, max value_severity severity)

/-- The row-major double loop of `iterate` over a frame's cells. -/
def iterRows (t : Nat) (client : List Char → AacsResponse)
    (rows : List (List PyObj)) : Option (List (List PyObj) × Nat) :=
  match rows with
  | [] => some ([], 0)
  | row :: rest =>
    match iterList t client row with
    | Option.none => Option.none
    | some (row2, row_severity) =>
      match iterRows t client rest with
      | Option.none => Option.none
      | some (rest2, severity) => some (row2 :: rest2, max row_severity severity)

end

/-- Severity component of `iterate`. -/
def itSev (t : Nat) (client : List Char → AacsResponse) (obj : PyObj) :
    Option Nat :=
  (iterate t client obj).map Prod.snd

/-- Maximum of a list of severities, 0 for the empty list. -/
def listMax (l : List Nat) : Nat := l.foldr max 0

/-- Models mlflow `_get_jsonable_obj(result, pandas_orient="records")` on the
`PyObj` universe: a frame becomes the list of its rows, each a mapping from
column label to cell value; every other value is returned as-is. -/
def get_jsonable_obj (result : PyObj) : PyObj :=
  match result with
  | .frame cols rows => .list (rows.map (fun row => .dict (cols.zip row)))
  | x => x

/-- Models `get_safe_response`: convert the result to a JSON-able value,
bypass when no AACS client is configured, otherwise redact via `iterate` and
return only the content. -/
def get_safe_response (client : Option (List Char → AacsResponse)) (t : Nat)
    (result : PyObj) : Option PyObj :=
  let jsonable_result := get_jsonable_obj result
  match client with
  | Option.none => some jsonable_result
  | some c => (iterate t c jsonable_result).map Prod.fst

/-- Models `get_safe_input`: bypass with severity 0 when no AACS client is
configured, otherwise redact via `iterate`. -/
def get_safe_input (client : Option (List Char → AacsResponse)) (t : Nat)
    (input_data : PyObj) : Option (PyObj × Nat) :=
  match client with
  | Option.none => some (input_data, 0)
  | some c => iterate t c input_data

/-- Python exceptions surfaced on the request path. -/
inductive PyExc where
  | exception (msg : List Char)
  | keyError (key : List Char)
  | attributeError (msg : List Char)
  | validation (error : List Char) (original : List Char)
deriving DecidableEq

/-- Python `str(e)` for the modelled exceptions (quoting of `KeyError`
arguments is omitted). -/
def excText (e : PyExc) : List Char :=
  match e with
  | .exception msg => msg
  | .keyError key => key
  | .attributeError msg => msg
  | .validation err orig => err ++ orig

/-- One chat turn of the dialog wire shape. -/
structure ChatMsg where
  role : List Char
  content : List Char
deriving DecidableEq

/-- The four reserved control substrings of the chat format. -/
def SPECIAL_TAGS : List (List Char) :=
  ["[INST]".data, "[/INST]".data, "<<SYS>>".data, "<</SYS>>".data]

/-- Message of the exception raised when a reserved tag occurs in a turn. -/
def TAG_ERROR : List Char :=
  "Error: special tags are not allowed as part of the prompt.".data

/-- Accumulator of the `process_dialog` extraction loop. -/
structure DialogState where
  system_prompt : List Char
  user_assistant_messages : List (List Char × List Char)
  user_message : Option (List Char)
  last_user_message : Option (List Char)

/-- One step of the `process_dialog` extraction loop; `n` is the number of
turns and `im` the enumerated turn `(i, message)`. -/
def processStep (n : Nat) (st : DialogState) (im : Nat × ChatMsg) :
    DialogState :=
  let i := im.1
  let message := im.2
  if message.role = "system".data ∧ i = 0 then
    ⟨message.content, st.user_assistant_messages, st.user_message,
      st.last_user_message⟩
  else if message.role = "user".data then
    if i = n - 1 then
      ⟨st.system_prompt, st.user_assistant_messages, st.user_message,
        some message.content⟩
    else
      ⟨st.system_prompt, st.user_assistant_messages, some message.content,
        st.last_user_message⟩
  else if message.role = "assistant".data then
    match st.user_message with
    | some u =>
      ⟨st.system_prompt, st.user_assistant_messages ++ [(u, message.content)],
        Option.none, st.last_user_message⟩
    | Option.none => st
  else st

/-- Models `process_dialog`: reject any dialog containing a reserved tag,
then extract the system prompt, the (user, assistant) history pairs and the
final user message. -/
def process_dialog (messages : List ChatMsg) :
    Except PyExc (List Char × List (List Char × List Char) × Option (List Char)) :=
  let flagged := SPECIAL_TAGS.any
    (fun tag => messages.any (fun msg => containsTag tag msg.content))
  if flagged then .error (.exception TAG_ERROR)
  else
    let st := messages.enum.foldl (processStep messages.length)
      ⟨[], [], Option.none, Option.none⟩
    .ok (st.system_prompt, st.user_assistant_messages, st.last_user_message)

/-- Models `format_chat_conv`: render the prompt from the system prompt, the
history pairs and the final message.  Stripping is skipped for the very first
user input; a missing final message after a nonempty history hits Python
`None.strip()`, an AttributeError. -/
def format_chat_conv (message : Option (List Char))
    (chat_history : List (List Char × List Char)) (system_prompt : List Char) :
    Except PyExc (List Char) :=
  let texts : List (List Char) :=
    if system_prompt ≠ [] then
      ["<s>[INST] <<SYS>>\n".data ++ system_prompt ++ "\n<</SYS>>\n\n".data]
    else
      ["<s>[INST] ".data]
  let step := fun (acc : List (List Char) × Bool) (ur : List Char × List Char) =>
    let user_input := if acc.2 then pyStrip ur.1 else ur.1
    (acc.1 ++
      [user_input ++ " [/INST] ".data ++ pyStrip ur.2 ++ " </s><s>[INST] ".data],
      true)
  let folded := chat_history.foldl step (texts, false)
  match message, folded.2 with
  | Option.none, true =>
    .error (.attributeError "NoneType object has no attribute strip".data)
  | Option.none, false => .ok ((folded.1 ++ ["None [/INST]".data]).flatten)
  | some m, do_strip =>
    .ok ((folded.1 ++ [(if do_strip then pyStrip m else m) ++ " [/INST]".data]).flatten)

/-- Models `get_processed_input_data_for_chat_completion`: extract the dialog
structure, then render the llama-2 conversation prompt. -/
def get_processed_input_data_for_chat_completion (dialog : List ChatMsg) :
    Except PyExc (List Char) :=
  match process_dialog dialog with
  | .error e => .error e
  | .ok (sys_prompt, user_assistant_msgs, message) =>
    format_chat_conv message user_assistant_msgs sys_prompt

/-- The `SupportedTask.TEXT_GENERATION` constant. -/
def TEXT_GENERATION : List Char := "text-generation".data

/-- The `SupportedTask.CHAT_COMPLETION` constant. -/
def CHAT_COMPLETION : List Char := "chat-completion".data

/-- Python `dict` lookup on the association-list model of a mapping. -/
def pyLookup (key : List Char) : List (List Char × PyObj) → Option PyObj
  | [] => Option.none
  | (k, v) :: rest => if k = key then some v else pyLookup key rest

/-- Reads one dialog entry at the ChatTurn wire shape: `role` and `content`
must be present string fields; anything else surfaces as the Python error the
dictionary access or the containment test would raise. -/
def toChatMsg (obj : PyObj) : Except PyExc ChatMsg :=
  match obj with
  | .dict kvs =>
    match pyLookup "role".data kvs, pyLookup "content".data kvs with
    | some (.str r), some (.str c) => .ok ⟨r, c⟩
    | Option.none, _ => .error (.keyError "role".data)
    | _, Option.none => .error (.keyError "content".data)
    | _, _ => .error (.exception "TypeError: role and content must be strings".data)
  | _ => .error (.exception "TypeError: string indices must be integers".data)

/-- Text of the expected-schema message placed in the `get_request_data`
error payload. -/
def EXPECTED_FORMAT : List Char :=
  ("Expected input format: \n\x7b\"input_data\": \x7b\"input_string\": \"<query>\", \"parameters\": \x7b\"k1\":\"v1\", \"k2\":\"v2\"\x7d\x7d\x7d.\n <query> should be in below format:\n For text-generation: [\"str1\", \"str2\", ...]\nFor chat-completion: [\x7b\"role\":\"user\", \"content\": \"str1\"\x7d,\x7b\"role\": \"assistant\", \"content\": \"str2\"\x7d ....]").data

/-- Body of the `try` block of `get_request_data`, after `json.loads`: shape
validation of `input_data`, `input_string` and `parameters`, then chat prompt
processing when the active task is chat-completion. -/
def getRequestDataBody (task_type : List Char) (data : PyObj) :
    Except PyExc (PyObj × PyObj) :=
  match data with
  | .dict kvs =>
    match (pyLookup "input_data".data kvs).getD PyObj.none with
    | .dict ikvs =>
      match pyLookup "input_string".data ikvs with
      | Option.none => .error (.keyError "input_string".data)
      | some input_data =>
        let params := (pyLookup "parameters".data ikvs).getD (.dict [])
        match input_data with
        | .list items =>
          match params with
          | .dict _ =>
            if task_type = CHAT_COMPLETION then
              match items.mapM toChatMsg with
              | .error e => .error e
              | .ok dialog =>
                match get_processed_input_data_for_chat_completion dialog with
                | .error e => .error e
                | .ok prompt => .ok (.str prompt, params)
            else
              .ok (input_data, params)
          | _ => .error (.exception "parameters is not a dict".data)
        | _ => .error (.exception "query is not a list".data)
    | _ => .error (.exception "Invalid input data".data)
  | _ => .error (.attributeError "object has no attribute get".data)

/-- Models `get_request_data`: parse the body with the `json.loads`
collaborator `parse`, run the shape validation, and wrap any failure into the
validation payload holding the expected-schema text together with the text of
the original exception. -/
def get_request_data (parse : List Char → Except PyExc PyObj)
    (task_type : List Char) (request_string : List Char) :
    Except PyExc (PyObj × PyObj) :=
  let body : Except PyExc (PyObj × PyObj) :=
    match parse request_string with
    | .error e => .error e
    | .ok data => getRequestDataBody task_type data
  match body with
  | .ok r => .ok r
  | .error e => .error (.validation EXPECTED_FORMAT (excText e))

/-- Decides whether the delimiter-separated decomposition of `s` is a clean
sequence of delimiter-terminated sentences: every piece nonempty except one
trailing empty piece. -/
def endsClean (d : Char) (s : List Char) : Bool :=
  let pieces := s.splitOn d
  (pieces.getLast? == some []) && pieces.dropLast.all (fun p => !p.isEmpty)

/-- A trivial classifier stub: every category result absent. -/
def cl0 : List Char → AacsResponse :=
  fun _ => ⟨Option.none, Option.none, Option.none, Option.none⟩

theorem chunkstringGo_flatten (fuel : Nat) :
    ∀ (s : List Char) (n : Nat), 0 < n → s.length ≤ fuel →
      (chunkstringGo fuel s n).flatten = s := by
  induction fuel with
  | zero =>
    intro s n _ hf
    have hs : s = [] := List.length_eq_zero.mp (Nat.le_zero.mp hf)
    simp [hs, chunkstringGo]
  | succ fuel ih =>
    intro s n hn hf
    by_cases hs : s = []
    · simp [chunkstringGo, hs]
    · simp only [chunkstringGo, hs, if_false, List.flatten_cons]
      rw [ih (s.drop n) n hn (by simp only [List.length_drop]; omega)]
      exact List.take_append_drop n s

theorem chunkstringGo_length_le (fuel : Nat) :
    ∀ (s : List Char) (n : Nat), ∀ c ∈ chunkstringGo fuel s n, c.length ≤ n := by
  induction fuel with
  | zero => intro s n c hc; simp [chunkstringGo] at hc
  | succ fuel ih =>
    intro s n c hc
    by_cases hs : s = []
    · simp [chunkstringGo, hs] at hc
    · simp only [chunkstringGo, hs, if_false, List.mem_cons] at hc
      rcases hc with h | h
      · subst h; simp [List.length_take]
      · exact ih _ _ _ h

theorem splitByLoop_flatten (u : CsChunkingUtils) (h : 0 < u.chunking_n) :
    ∀ (pieces : List (List Char)) (buffer : List Char),
      (splitByLoop u pieces buffer).flatten = buffer ++ pieces.flatten := by
  intro pieces
  induction pieces with
  | nil =>
    intro buffer
    by_cases hb : buffer.length > 0
    · simp [splitByLoop, hb]
    · have hbe : buffer = [] := List.length_eq_zero.mp (by omega)
      simp [splitByLoop, hbe]
  | cons i rest ih =>
    intro buffer
    rw [splitByLoop]
    by_cases h1 : i.length > u.chunking_n
    · rw [if_pos h1]
      have hcs : (u.chunkstring i u.chunking_n).flatten = i :=
        chunkstringGo_flatten i.length i u.chunking_n h (Nat.le_refl _)
      simp only [List.flatten_append, List.flatten_cons, ih [], hcs,
        List.nil_append, List.append_assoc]
    · rw [if_neg h1]
      by_cases h2 : buffer.length + i.length ≤ u.chunking_n
      · rw [if_pos h2, ih (buffer ++ i)]
        simp [List.append_assoc]
      · rw [if_neg h2]
        simp only [List.flatten_cons, ih i, List.append_assoc]

theorem split_by_flatten (u : CsChunkingUtils) (h : 0 < u.chunking_n)
    (input : List Char) :
    (u.split_by input).flatten
      = (((input.splitOn u.delimiter).filter (fun e => !e.isEmpty)).map
          (fun e => e ++ [u.delimiter])).flatten := by
  simp only [CsChunkingUtils.split_by]
  rw [splitByLoop_flatten u h _ []]
  simp

theorem flatten_map_append_delim (d : Char) :
    ∀ (ps : List (List Char)),
      (ps.map (fun e => e ++ [d])).flatten = [d].intercalate (ps ++ [[]]) := by
  intro ps
  induction ps with
  | nil => simp [List.intercalate]
  | cons p ps ih =>
    have hx : ∃ b tl, ps ++ [[]] = b :: tl := by
      cases ps with
      | nil => exact ⟨[], [], rfl⟩
      | cons b tl => exact ⟨b, tl ++ [[]], by simp⟩
    obtain ⟨b, tl, hbtl⟩ := hx
    calc (List.map (fun e => e ++ [d]) (p :: ps)).flatten
        = (p ++ [d]) ++ (List.map (fun e => e ++ [d]) ps).flatten := by
          simp only [List.map_cons, List.flatten_cons]
      _ = (p ++ [d]) ++ [d].intercalate (ps ++ [[]]) := by rw [ih]
      _ = [d].intercalate ((p :: ps) ++ [[]]) := by
          rw [List.cons_append, hbtl]
          simp [List.intercalate, List.intersperse_cons_cons, List.append_assoc]

theorem splitByLoop_length_le (u : CsChunkingUtils) :
    ∀ (pieces : List (List Char)) (buffer : List Char),
      buffer.length ≤ u.chunking_n →
      ∀ c ∈ splitByLoop u pieces buffer, c.length ≤ u.chunking_n := by
  intro pieces
  induction pieces with
  | nil =>
    intro buffer hb c hc
    rw [splitByLoop] at hc
    by_cases h : buffer.length > 0
    · rw [if_pos h] at hc
      rw [List.mem_singleton] at hc
      subst hc; exact hb
    · rw [if_neg h] at hc; simp at hc
  | cons i rest ih =>
    intro buffer hb c hc
    rw [splitByLoop] at hc
    by_cases h1 : i.length > u.chunking_n
    · rw [if_pos h1] at hc
      simp only [List.cons_append, List.mem_cons, List.mem_append] at hc
      rcases hc with hc | hc | hc
      · subst hc; exact hb
      · exact chunkstringGo_length_le i.length i u.chunking_n c hc
      · exact ih [] (Nat.zero_le _) c hc
    · rw [if_neg h1] at hc
      by_cases h2 : buffer.length + i.length ≤ u.chunking_n
      · rw [if_pos h2] at hc
        exact ih (buffer ++ i) (by simp only [List.length_append]; omega) c hc
      · rw [if_neg h2] at hc
        rcases List.mem_cons.mp hc with hc | hc
        · subst hc; exact hb
        · exact ih i (by omega) c hc

/-- Claim C1 (amended).  For `maxLen > 0`, concatenating all chunks of
`split_by` yields exactly the concatenation of the delimiter-terminated
nonempty delimiter-separated pieces of the input; this reproduces the input
verbatim exactly on clean inputs (every piece nonempty except one trailing
empty piece, i.e. the input ends with the delimiter and contains no run of
delimiters), the case `endsClean`. -/
theorem chunker_concat_characterizes (s : List Char) (n : Nat) (d : Char)
    (hn : 0 < n) :
    ((⟨n, d⟩ : CsChunkingUtils).split_by s).flatten
        = (((s.splitOn d).filter (fun e => !e.isEmpty)).map
            (fun e => e ++ [d])).flatten
      ∧ (endsClean d s = true →
          ((⟨n, d⟩ : CsChunkingUtils).split_by s).flatten = s) := by
  refine ⟨split_by_flatten ⟨n, d⟩ hn s, fun hclean => ?_⟩
  rw [split_by_flatten ⟨n, d⟩ hn s]
  simp only [endsClean, Bool.and_eq_true, beq_iff_eq, List.all_eq_true]
    at hclean
  obtain ⟨hlast, hall⟩ := hclean
  have hne : s.splitOn d ≠ [] := by
    simp only [List.splitOn]
    exact List.splitOnP_ne_nil _ s
  have hdecomp : s.splitOn d = (s.splitOn d).dropLast ++ [[]] := by
    have h1 := List.dropLast_append_getLast hne
    have h2 : (s.splitOn d).getLast hne = [] := by
      rw [List.getLast?_eq_getLast (s.splitOn d) hne] at hlast
      exact Option.some_injective _ hlast
    rw [← h2]; exact h1.symm
  have hfilter : (s.splitOn d).filter (fun e => !e.isEmpty)
      = (s.splitOn d).dropLast := by
    conv_lhs => rw [hdecomp]
    rw [List.filter_append, List.filter_eq_self.mpr hall]
    simp
  rw [hfilter, flatten_map_append_delim d, ← hdecomp]
  exact List.intercalate_splitOn s d

/-- Claim C1 counterexample.  For the input "a" (no trailing delimiter) and
`maxLen = 5`, the concatenation of all chunks is "a." and not "a": a
delimiter character is invented. -/
theorem chunker_concat_cex :
    ¬ (((⟨5, '.'⟩ : CsChunkingUtils).split_by "a".data).flatten = "a".data) := by
  decide

/-- Witness for C1 on a clean concrete input. -/
theorem chunker_concat_characterizes_witness :
    0 < 5 ∧ endsClean '.' "ab.c.".data = true
      ∧ ((⟨5, '.'⟩ : CsChunkingUtils).split_by "ab.c.".data).flatten
          = "ab.c.".data :=
  ⟨by decide, by decide,
    (chunker_concat_characterizes "ab.c.".data 5 '.' (by decide)).2 (by decide)⟩

/-- Claim C2.  For `maxLen > 0`, every chunk produced by `split_by`
(including the chunks of the fixed-size fallback `chunkstring`) has length at
most `maxLen`. -/
theorem chunker_chunk_length (s : List Char) (n : Nat) (d : Char)
    (hn : 0 < n) :
    ∀ c ∈ (⟨n, d⟩ : CsChunkingUtils).split_by s, c.length ≤ n := by
  intro c hc
  simp only [CsChunkingUtils.split_by] at hc
  exact splitByLoop_length_le ⟨n, d⟩ _ [] (Nat.zero_le _) c hc

/-- Witness for C2: an input whose over-long pieces force the fallback
slicer. -/
theorem chunker_chunk_length_witness :
    0 < 1 ∧ ∀ c ∈ (⟨1, '.'⟩ : CsChunkingUtils).split_by "ab.c".data,
      c.length ≤ 1 :=
  ⟨by decide, chunker_chunk_length "ab.c".data 1 '.' (by decide)⟩

/-- Traverse a list with a fallible function, failing as soon as one element
fails (the Option analogue of mapping a fallible function). -/
def mapOpt {α β : Type} (f : α → Option β) : List α → Option (List β)
  | [] => some []
  | x :: rest =>
    match f x with
    | Option.none => Option.none
    | some y =>
      match mapOpt f rest with
      | Option.none => Option.none
      | some ys => some (y :: ys)

theorem mapOpt_append {α β : Type} (f : α → Option β) (a b : List α) :
    mapOpt f (a ++ b)
      = (mapOpt f a).bind (fun xs => (mapOpt f b).map (fun ys => xs ++ ys)) := by
  induction a with
  | nil =>
    cases hb : mapOpt f b with
    | none => simp [mapOpt, hb]
    | some ys => simp [mapOpt, hb]
  | cons x a ih =>
    cases hf : f x with
    | none => simp [mapOpt, hf]
    | some y =>
      cases ha : mapOpt f a with
      | none =>
        rw [ha] at ih
        simp only [Option.none_bind] at ih
        simp [mapOpt, hf, ha, ih]
      | some xs =>
        cases hb : mapOpt f b with
        | none =>
          rw [ha, hb] at ih
          simp only [Option.some_bind, Option.map_none'] at ih
          simp [mapOpt, hf, ha, hb, ih]
        | some ys =>
          rw [ha, hb] at ih
          simp only [Option.some_bind, Option.map_some'] at ih
          simp [mapOpt, hf, ha, hb, ih]

theorem listMax_cons (x : Nat) (l : List Nat) :
    listMax (x :: l) = max x (listMax l) := rfl

theorem listMax_append (a b : List Nat) :
    listMax (a ++ b) = max (listMax a) (listMax b) := by
  induction a with
  | nil => simp [listMax]
  | cons x a ih =>
    rw [List.cons_append, listMax_cons, listMax_cons, ih]
    exact (Nat.max_assoc x (listMax a) (listMax b)).symm

theorem itSev_dict (t : Nat) (client : List Char → AacsResponse)
    (entries : List (List Char × PyObj)) :
    itSev t client (.dict entries) = (iterDict t client entries).map Prod.snd := by
  cases h : iterDict t client entries with
  | none => simp [itSev, iterate, h]
  | some p => obtain ⟨a, b⟩ := p; simp [itSev, iterate, h]

theorem itSev_list (t : Nat) (client : List Char → AacsResponse)
    (elems : List PyObj) :
    itSev t client (.list elems) = (iterList t client elems).map Prod.snd := by
  cases h : iterList t client elems with
  | none => simp [itSev, iterate, h]
  | some p => obtain ⟨a, b⟩ := p; simp [itSev, iterate, h]

theorem itSev_frame (t : Nat) (client : List Char → AacsResponse)
    (cols : List (List Char)) (rows : List (List PyObj)) :
    itSev t client (.frame cols rows) = (iterRows t client rows).map Prod.snd := by
  cases h : iterRows t client rows with
  | none => simp [itSev, iterate, h]
  | some p => obtain ⟨a, b⟩ := p; simp [itSev, iterate, h]

theorem iterList_snd (t : Nat) (client : List Char → AacsResponse) :
    ∀ (elems : List PyObj),
      (iterList t client elems).map Prod.snd
        = (mapOpt (itSev t client) elems).map listMax := by
  intro elems
  induction elems with
  | nil => simp [iterList, mapOpt, listMax]
  | cons x rest ih =>
    cases hv : iterate t client x with
    | none =>
      have hx : itSev t client x = Option.none := by simp [itSev, hv]
      simp [iterList, hv, mapOpt, hx]
    | some vs =>
      obtain ⟨x2, s1⟩ := vs
      have hx : itSev t client x = some s1 := by simp [itSev, hv]
      cases hr : iterList t client rest with
      | none =>
        rw [hr] at ih
        cases hmm : mapOpt (itSev t client) rest with
        | none => simp [iterList, hv, hr, mapOpt, hx, hmm]
        | some sevs => rw [hmm] at ih; simp at ih
      | some rs =>
        obtain ⟨rest2, s2⟩ := rs
        rw [hr] at ih
        cases hmm : mapOpt (itSev t client) rest with
        | none => rw [hmm] at ih; simp at ih
        | some sevs =>
          rw [hmm] at ih
          simp only [Option.map_some'] at ih
          have hs2 : s2 = listMax sevs := Option.some.inj ih
          simp [iterList, hv, hr, mapOpt, hx, hmm, listMax_cons, hs2]

theorem iterDict_snd (t : Nat) (client : List Char → AacsResponse) :
    ∀ (entries : List (List Char × PyObj)),
      (iterDict t client entries).map Prod.snd
        = (mapOpt (fun kv => itSev t client kv.2) entries).map listMax := by
  intro entries
  induction entries with
  | nil => simp [iterDict, mapOpt, listMax]
  | cons kv rest ih =>
    obtain ⟨key, value⟩ := kv
    cases hv : iterate t client value with
    | none =>
      have hx : itSev t client value = Option.none := by simp [itSev, hv]
      simp [iterDict, hv, mapOpt, hx]
    | some vs =>
      obtain ⟨v2, s1⟩ := vs
      have hx : itSev t client value = some s1 := by simp [itSev, hv]
      cases hr : iterDict t client rest with
      | none =>
        rw [hr] at ih
        cases hmm : mapOpt (fun kv => itSev t client kv.2) rest with
        | none => simp [iterDict, hv, hr, mapOpt, hx, hmm]
        | some sevs => rw [hmm] at ih; simp at ih
      | some rs =>
        obtain ⟨rest2, s2⟩ := rs
        rw [hr] at ih
        cases hmm : mapOpt (fun kv => itSev t client kv.2) rest with
        | none => rw [hmm] at ih; simp at ih
        | some sevs =>
          rw [hmm] at ih
          simp only [Option.map_some'] at ih
          have hs2 : s2 = listMax sevs := Option.some.inj ih
          simp [iterDict, hv, hr, mapOpt, hx, hmm, listMax_cons, hs2]

theorem iterRows_snd (t : Nat) (client : List Char → AacsResponse) :
    ∀ (rows : List (List PyObj)),
      (iterRows t client rows).map Prod.snd
        = (mapOpt (itSev t client) rows.flatten).map listMax := by
  intro rows
  induction rows with
  | nil => simp [iterRows, mapOpt, listMax]
  | cons row rest ih =>
    cases hrow : iterList t client row with
    | none =>
      have h1 : mapOpt (itSev t client) row = Option.none := by
        have hb := iterList_snd t client row
        rw [hrow] at hb
        cases hm : mapOpt (itSev t client) row with
        | none => rfl
        | some sevs => rw [hm] at hb; simp at hb
      simp [iterRows, hrow, List.flatten_cons, mapOpt_append, h1]
    | some rp =>
      obtain ⟨row2, s1⟩ := rp
      have h1 : ∃ sevs1, mapOpt (itSev t client) row = some sevs1
          ∧ listMax sevs1 = s1 := by
        have hb := iterList_snd t client row
        rw [hrow] at hb
        cases hm : mapOpt (itSev t client) row with
        | none => rw [hm] at hb; simp at hb
        | some sevs1 =>
          rw [hm] at hb
          simp only [Option.map_some'] at hb
          exact ⟨sevs1, rfl, (Option.some.inj hb).symm⟩
      obtain ⟨sevs1, hm1, hs1⟩ := h1
      cases hrest : iterRows t client rest with
      | none =>
        rw [hrest] at ih
        have h2 : mapOpt (itSev t client) rest.flatten = Option.none := by
          cases hm : mapOpt (itSev t client) rest.flatten with
          | none => rfl
          | some sevs => rw [hm] at ih; simp at ih
        simp [iterRows, hrow, hrest, List.flatten_cons, mapOpt_append, hm1, h2]
      | some rsp =>
        obtain ⟨rest2, s2⟩ := rsp
        rw [hrest] at ih
        cases hm2 : mapOpt (itSev t client) rest.flatten with
        | none => rw [hm2] at ih; simp at ih
        | some sevs2 =>
          rw [hm2] at ih
          simp only [Option.map_some'] at ih
          have hs2 : s2 = listMax sevs2 := Option.some.inj ih
          simp [iterRows, hrow, hrest, List.flatten_cons, mapOpt_append,
            hm1, hm2, listMax_append, hs1, hs2]

/-- Claim C3.  For every composite value the severity computed by `iterate`
equals the maximum of the severities computed for its immediate children
(entries of a mapping, elements of a sequence, cells of a frame), at every
nesting depth; non-string scalars pass through unchanged with severity 0.
Failure of any child (`Option.none`) propagates to the composite. -/
theorem redactor_composite_severity (t : Nat)
    (client : List Char → AacsResponse) :
    (∀ entries, itSev t client (.dict entries)
        = (mapOpt (fun kv => itSev t client kv.2) entries).map listMax)
    ∧ (∀ elems, itSev t client (.list elems)
        = (mapOpt (itSev t client) elems).map listMax)
    ∧ (∀ cols rows, itSev t client (.frame cols rows)
        = (mapOpt (itSev t client) rows.flatten).map listMax)
    ∧ (∀ n : Int, iterate t client (.int n) = some (.int n, 0))
    ∧ (∀ b : Bool, iterate t client (.bool b) = some (.bool b, 0))
    ∧ iterate t client PyObj.none = some (PyObj.none, 0) := by
  refine ⟨fun entries => ?_, fun elems => ?_, fun cols rows => ?_,
    fun n => ?_, fun b => ?_, ?_⟩
  · rw [itSev_dict, iterDict_snd]
  · rw [itSev_list, iterList_snd]
  · rw [itSev_frame, iterRows_snd]
  · simp [iterate]
  · simp [iterate]
  · simp [iterate]

/-- Claim C4.  A string whose analyzed severity is at most the threshold is
returned unchanged by `iterate`; a string whose analyzed severity exceeds the
threshold is replaced by the empty string; the achieved severity is returned
alongside the content in both cases. -/
theorem redactor_string_threshold (t : Nat) (client : List Char → AacsResponse)
    (s : List Char) (severity : Nat)
    (h : analyze_text client s = some severity) :
    iterate t client (.str s)
      = if severity > t then some (.str [], severity)
        else some (.str s, severity) := by
  simp [iterate, h]

/-- Witness for C4 at a concrete harmless string. -/
theorem redactor_string_threshold_witness :
    analyze_text cl0 "hi".data = some 0
      ∧ iterate 2 cl0 (.str "hi".data)
          = if 0 > 2 then some (.str [], 0) else some (.str "hi".data, 0) :=
  ⟨by decide, redactor_string_threshold 2 cl0 "hi".data 0 (by decide)⟩

/-- A concrete single-cell frame used against claim C5. -/
def F0 : PyObj := .frame ["0".data] [[.str "h".data]]

/-- Claim C5 counterexample.  With no client configured, `get_safe_response`
does not return a frame argument unchanged: the JSON-able conversion applied
before the bypass check rewrites it into a list of row mappings. -/
theorem gate_bypass_cex :
    ¬ (get_safe_input Option.none 2 F0 = some (F0, 0)
        ∧ get_safe_response Option.none 2 F0 = some F0) := by
  intro h
  have h2 := h.2
  simp [get_safe_response, get_jsonable_obj, F0] at h2

/-- Claim C5 (amended).  With no client configured, `get_safe_input` returns
its argument unchanged with severity 0, and `get_safe_response` returns the
JSON-able conversion of its argument, which is the identity on every
non-frame value. -/
theorem gate_bypass (t : Nat) (x : PyObj) :
    get_safe_input Option.none t x = some (x, 0)
    ∧ get_safe_response Option.none t x = some (get_jsonable_obj x)
    ∧ (∀ entries, get_jsonable_obj (.dict entries) = .dict entries)
    ∧ (∀ elems, get_jsonable_obj (.list elems) = .list elems)
    ∧ (∀ s, get_jsonable_obj (.str s) = .str s)
    ∧ (∀ n : Int, get_jsonable_obj (.int n) = .int n)
    ∧ (∀ b : Bool, get_jsonable_obj (.bool b) = .bool b)
    ∧ get_jsonable_obj PyObj.none = PyObj.none :=
  ⟨rfl, rfl, fun _ => rfl, fun _ => rfl, fun _ => rfl, fun _ => rfl,
    fun _ => rfl, rfl⟩

/-- Claim C6.  The chat formatter maps the single-user-turn dialog to the
bare instruction prompt, and the system/user/assistant/user dialog to the
full llama-2 conversation prompt. -/
theorem chat_format_examples :
    get_processed_input_data_for_chat_completion
        [⟨"user".data, "A".data⟩] = .ok "<s>[INST] A [/INST]".data
    ∧ get_processed_input_data_for_chat_completion
        [⟨"system".data, "S".data⟩, ⟨"user".data, "A".data⟩,
         ⟨"assistant".data, "B".data⟩, ⟨"user".data, "C".data⟩]
        = .ok "<s>[INST] <<SYS>>\nS\n<</SYS>>\n\nA [/INST] B </s><s>[INST] C [/INST]".data :=
  ⟨rfl, rfl⟩

/-- Claim C7.  A dialog in which any turn's content contains one of the four
reserved control substrings is rejected with the special-tags error before
any prompt is produced. -/
theorem chat_special_tags_rejected (dialog : List ChatMsg)
    (h : ∃ msg ∈ dialog, ∃ tag ∈ SPECIAL_TAGS,
        containsTag tag msg.content = true) :
    get_processed_input_data_for_chat_completion dialog
      = .error (.exception TAG_ERROR) := by
  have hflag : SPECIAL_TAGS.any
      (fun tag => dialog.any (fun msg => containsTag tag msg.content)) = true := by
    obtain ⟨msg, hmsg, tag, htag, hc⟩ := h
    rw [List.any_eq_true]
    exact ⟨tag, htag, List.any_eq_true.mpr ⟨msg, hmsg, hc⟩⟩
  simp [get_processed_input_data_for_chat_completion, process_dialog, hflag]

/-- Witness for C7 at a concrete dialog containing a reserved tag. -/
theorem chat_special_tags_rejected_witness :
    (∃ msg ∈ [(⟨"user".data, "[INST] hi".data⟩ : ChatMsg)],
        ∃ tag ∈ SPECIAL_TAGS, containsTag tag msg.content = true)
    ∧ get_processed_input_data_for_chat_completion
        [⟨"user".data, "[INST] hi".data⟩] = .error (.exception TAG_ERROR) :=
  ⟨by decide, chat_special_tags_rejected _ (by decide)⟩

/-- Claim C8.  When the parsed body is an object whose `input_data` field is
missing or not an object, `get_request_data` fails with the validation
payload holding the expected-schema text and the original exception text. -/
theorem request_invalid_input_data (parse : List Char → Except PyExc PyObj)
    (task_type request_string : List Char) (kvs : List (List Char × PyObj))
    (hp : parse request_string = .ok (.dict kvs))
    (hd : ((pyLookup "input_data".data kvs).getD PyObj.none).isDict = false) :
    get_request_data parse task_type request_string
      = .error (.validation EXPECTED_FORMAT "Invalid input data".data) := by
  cases hI : (pyLookup "input_data".data kvs).getD PyObj.none
  case dict es => rw [hI] at hd; simp [PyObj.isDict] at hd
  all_goals simp [get_request_data, hp, getRequestDataBody, hI, excText]

/-- A parse collaborator stub returning an object without `input_data`. -/
def parse0 : List Char → Except PyExc PyObj := fun _ => .ok (.dict [])

/-- Witness for C8 with a body parsing to the empty object. -/
theorem request_invalid_input_data_witness :
    parse0 [] = .ok (.dict [])
    ∧ ((pyLookup "input_data".data []).getD PyObj.none).isDict = false
    ∧ get_request_data parse0 TEXT_GENERATION []
        = .error (.validation EXPECTED_FORMAT "Invalid input data".data) :=
  ⟨rfl, rfl, request_invalid_input_data parse0 TEXT_GENERATION [] [] rfl rfl⟩

/-- Claim C9.  On empty or whitespace-only text, `analyze_text` returns
severity 0 for every classifier collaborator (the classifier is never
consulted). -/
theorem analyzer_whitespace_zero (client : List Char → AacsResponse)
    (text : List Char) (h : ∀ c ∈ text, isPySpace c = true) :
    analyze_text client text = some 0 := by
  have hstrip : pyStrip text = [] := by
    have hdw : text.dropWhile isPySpace = [] := List.dropWhile_eq_nil_iff.mpr h
    simp [pyStrip, hdw]
  simp [analyze_text, hstrip]

/-- Witness for C9 on a whitespace-only string. -/
theorem analyzer_whitespace_zero_witness :
    (∀ c ∈ " ".data, isPySpace c = true) ∧ analyze_text cl0 " ".data = some 0 :=
  ⟨by decide, analyzer_whitespace_zero cl0 " ".data (by decide)⟩

/-- Claim C10 (code bug evaluation).  The input "." is non-empty and not
whitespace-only, yet `split_by` produces no chunk at all for it, so
`analyze_text` applies Python `max` to an empty list and fails (a
ValueError, modelled by `none`) no matter which classifier is configured. -/
theorem analyzer_dot_fails :
    ((⟨1000, '.'⟩ : CsChunkingUtils).split_by ".".data = [])
    ∧ ∀ client : List Char → AacsResponse,
        analyze_text client ".".data = Option.none :=
  ⟨rfl, fun _ => rfl⟩
